import Mathlib

/-!
Shallow embedding of the register-coalescing pass
(src/intel/compiler/brw_opt_register_coalesce.cpp) and proofs about it.

The instruction stream, operands and pass state are translated directly from
the source.  Helpers that live outside the provided source (the brw_range
interval operations, regions_overlap, regs_written, the def/liveness oracles,
the structural payload check) are modelled from the specification and marked
as such in their doc comments.
-/

set_option maxRecDepth 20000

/-- Storage class of an operand (spec section 3: virtual-register,
fixed-register, immediate, null/discard; BAD is the cleared placeholder used
by the rewriter). -/
inductive RegFile where
  | VGRF
  | FIXED_GRF
  | IMM
  | ARF_NULL
  | BAD_FILE
deriving DecidableEq, Repr

/-- Opcode tags relevant to the pass. -/
inductive Opcode where
  | MOV
  | LOAD_PAYLOAD
  | SEND
  | NOP
  | LOAD_REG
  | OTHER
deriving DecidableEq, Repr

/-- Operand, following the brw_reg fields the pass reads: storage class,
register index, sub-register byte offset, numeric type tag, regioning
stride, contiguity flag, negate/absolute-value modifiers. -/
structure brw_reg where
  file : RegFile
  nr : Nat
  offset : Nat
  type : Nat
  stride : Nat
  contiguous : Bool
  negate : Bool
  abs : Bool
deriving DecidableEq, Repr

/-- Cleared placeholder operand (reg_undef in the source). -/
def reg_undef : brw_reg :=
  ⟨RegFile.BAD_FILE, 0, 0, 0, 0, false, false, false⟩

/-- Null/discard hardware register (brw_null_reg in the source). -/
def brw_null_reg : brw_reg :=
  ⟨RegFile.ARF_NULL, 0, 0, 0, 0, false, false, false⟩

/-- Give an operand a different numeric type (retype in the source). -/
def retype (r : brw_reg) (t : Nat) : brw_reg :=
  { r with type := t }

/-- Size in bytes of one register unit (REG_SIZE in the source). -/
def REG_SIZE : Nat := 32

/-- Live range of a decomposed variable.  Modelled from the spec: an
inclusive program-point interval [start_ip, end_ip] (spec section 3); the
brw_range interval type itself is not part of the provided source. -/
structure brw_range where
  start : Int
  last : Int
deriving DecidableEq, Repr

instance : Inhabited brw_range := ⟨⟨0, 0⟩⟩

/-- Modelled from the spec: a live range is a valid interval when
start_ip is at most end_ip. -/
def brw_range.valid (r : brw_range) : Prop := r.start ≤ r.last

instance (r : brw_range) : Decidable r.valid := by
  unfold brw_range.valid; infer_instance

/-- Modelled from the spec: interval containment of live ranges; the
containing range starts no later and ends no earlier than the contained
one. -/
def brw_range.contains (a b : brw_range) : Bool :=
  decide (a.start ≤ b.start ∧ b.last ≤ a.last)

/-- Modelled from the spec: intersection of two inclusive intervals. -/
def intersect (a b : brw_range) : brw_range :=
  ⟨max a.start b.start, min a.last b.last⟩

/-- Modelled from the spec: an inclusive interval is empty when its end
precedes its start. -/
def brw_range.is_empty (r : brw_range) : Bool :=
  decide (r.last < r.start)

/-- Modelled from the spec: interval union of two live ranges (the
merge operation the rewriter uses to fold the absorbed slice's range into
the surviving slice's range). -/
def merge (a b : brw_range) : brw_range :=
  ⟨min a.start b.start, max a.last b.last⟩

/-- Instruction, following the brw_inst fields the pass reads.  Methods of
brw_inst that are defined outside the provided source are modelled from the
spec as fields: is_partial_write (spec: boolean is-partial-write),
size_written / per-source read sizes (byte footprints the region-overlap
check consumes).  The id field is the stable instruction identity the spec
prescribes (spec section 9: pointer identity replaced by a stable integer
id), and block is the id of the instruction's basic block. -/
structure brw_inst where
  id : Nat
  opcode : Opcode
  dst : brw_reg
  src : List brw_reg
  size_written : Nat
  sizes_read : List Nat
  is_partial_write : Bool
  saturate : Bool
  conditional_mod : Nat
  force_writemask_all : Bool
  eot : Bool
  exec_size : Nat
  header_size : Nat
  block : Nat
deriving DecidableEq, Repr

/-- Source operand j of an instruction (inst->src[j]). -/
def srcAt (i : brw_inst) (j : Nat) : brw_reg := i.src.getD j reg_undef

/-- Bytes read from source operand j (inst->size_read(devinfo, j); the
method is outside the provided source, so the per-operand byte counts are
carried on the instruction). -/
def sizeReadAt (i : brw_inst) (j : Nat) : Nat := i.sizes_read.getD j 0

/-- Modelled from the spec: number of register units an instruction writes
(regs_written in the source tree; spec section 4.2 decrements the
remaining-slice counter by the number of register units written). -/
def regs_written (i : brw_inst) : Nat :=
  (i.size_written + REG_SIZE - 1) / REG_SIZE

/-- Modelled from the spec: the external region-overlap check
(regions_overlap in the source tree).  Two register regions overlap when
they name the same storage (same register file and index) and their byte
intervals intersect; immediates and null/cleared operands occupy no
storage. -/
def regions_overlap (a : brw_reg) (sa : Nat) (b : brw_reg) (sb : Nat) : Bool :=
  match a.file, b.file with
  | RegFile.VGRF, RegFile.VGRF =>
      decide (a.nr = b.nr ∧ a.offset < b.offset + sb ∧ b.offset < a.offset + sa)
  | RegFile.FIXED_GRF, RegFile.FIXED_GRF =>
      decide (a.nr = b.nr ∧ a.offset < b.offset + sb ∧ b.offset < a.offset + sa)
  | _, _ => false

/-- Basic block: a stable id plus its instructions in program order. -/
structure BBlock where
  id : Nat
  insts : List brw_inst
deriving DecidableEq, Repr

instance : Inhabited BBlock := ⟨⟨0, []⟩⟩

/-- External collaborators of the pass, all consumed read-only (spec
section 6).  Modelled from the spec: sizes is the register allocator's
per-register size table in register units; vars_interfere and var_from_vgrf
are the Live-Range Oracle; ipRange gives each basic block's program-point
interval; defs is the Definition Oracle, reporting the opcode of the
defining instruction of an operand; is_coalescing_payload is the external
structural check for payload-gather candidates; type_size gives the byte
size of a numeric type tag; max_vgrf_size bounds any register's size and
sizes the scratch tables. -/
structure Env where
  sizes : Nat → Nat
  vars_interfere : Nat → Nat → Bool
  var_from_vgrf : Nat → Nat
  ipRange : Nat → brw_range
  defs : brw_reg → Option Opcode
  is_coalescing_payload : brw_inst → Bool
  type_size : Nat → Nat
  max_vgrf_size : Nat

/-- Inner loop of the LOAD_PAYLOAD case of is_nop_mov: walks the sources,
advancing a running destination cursor by one register unit for header
slices and by exec_size * stride * type-size otherwise, and requires each
source to equal the cursor. -/
def nopPayloadLoop (env : Env) (inst : brw_inst) : brw_reg → Nat → List brw_reg → Bool
  | _, _, [] => true
  | dst, i, s :: rest =>
      if dst = s then
        nopPayloadLoop env inst
          { dst with offset := dst.offset +
              (if i < inst.header_size then REG_SIZE
               else inst.exec_size * dst.stride * env.type_size s.type) }
          (i + 1) rest
      else false

/-- Recognizer for trivial copies (is_nop_mov in the source): a MOV whose
destination equals its single source, or a LOAD_PAYLOAD whose every source
equals the destination slice it targets. -/
def is_nop_mov (env : Env) (inst : brw_inst) : Bool :=
  if inst.opcode = Opcode.LOAD_PAYLOAD then
    nopPayloadLoop env inst inst.dst 0 inst.src
  else if inst.opcode = Opcode.MOV then
    decide (inst.dst = srcAt inst 0)
  else false

/-- Candidate classifier (is_coalesce_candidate in the source). -/
def is_coalesce_candidate (env : Env) (inst : brw_inst) : Bool :=
  if (inst.opcode ≠ Opcode.MOV ∧ inst.opcode ≠ Opcode.LOAD_PAYLOAD) ∨
     inst.is_partial_write = true ∨
     inst.saturate = true ∨
     (srcAt inst 0).file ≠ RegFile.VGRF ∨
     (srcAt inst 0).negate = true ∨
     (srcAt inst 0).abs = true ∨
     (srcAt inst 0).contiguous = false ∨
     inst.dst.file ≠ RegFile.VGRF ∨
     inst.dst.type ≠ (srcAt inst 0).type then false
  else if env.sizes inst.dst.nr < env.sizes (srcAt inst 0).nr then false
  else if inst.opcode = Opcode.LOAD_PAYLOAD then env.is_coalescing_payload inst
  else true

/-- Outcome of one step of the interference scan inside can_coalesce_vars:
abort (registers interfere), stop with success (past the intersection), or
continue with updated seen-src-write / seen-copy flags. -/
inductive ScanRes where
  | interfere
  | noInterfere
  | next (ssw : Bool) (sc : Bool)
deriving DecidableEq, Repr

/-- Whether some source operand of scan_inst overlaps the region the
coalescing instruction writes (the reads-of-destination check guarded by
seen_src_write in the source). -/
def readsOverlapDst (scan_inst inst : brw_inst) : Bool :=
  (List.range scan_inst.src.length).any fun j =>
    regions_overlap (srcAt scan_inst j) (sizeReadAt scan_inst j)
      inst.dst inst.size_written

/-- One instruction of the interference scan of can_coalesce_vars, at
program point scan_ip with flags seen_src_write (ssw) and seen_copy (sc).
Faithful to the loop body at lines 130-184 of the source: skip points
before the intersection; skip (and remember) the coalescing instruction
itself; succeed once past the intersection; abort when a read of the
destination follows a tolerated source write before the copy; abort when
anything else writes the destination region; and tolerate a write to the
source region only before the copy, in the copy's block, without adding
force_writemask_all. -/
def scanStep (inst scan_inst : brw_inst) (intersection : brw_range)
    (scan_ip : Int) (ssw sc : Bool) : ScanRes :=
  if scan_ip < intersection.start then ScanRes.next ssw sc
  else if scan_inst.id = inst.id then ScanRes.next ssw true
  else if intersection.last < scan_ip then ScanRes.noInterfere
  else if ssw = true ∧ sc = false ∧ readsOverlapDst scan_inst inst = true then
    ScanRes.interfere
  else if regions_overlap scan_inst.dst scan_inst.size_written
            inst.dst inst.size_written then ScanRes.interfere
  else if regions_overlap scan_inst.dst scan_inst.size_written
            (srcAt inst 0) (sizeReadAt inst 0) then
    if sc = true ∨ scan_inst.block ≠ inst.block ∨
       (scan_inst.force_writemask_all = true ∧ inst.force_writemask_all = false) then
      ScanRes.interfere
    else ScanRes.next true sc
  else ScanRes.next ssw sc

/-- Scan of the instructions of one block, threading the program point and
the two flags. -/
def scanInsts (inst : brw_inst) (intersection : brw_range) :
    List brw_inst → Int → Bool → Bool → ScanRes
  | [], _, ssw, sc => ScanRes.next ssw sc
  | si :: rest, ip, ssw, sc =>
      match scanStep inst si intersection ip ssw sc with
      | ScanRes.interfere => ScanRes.interfere
      | ScanRes.noInterfere => ScanRes.noInterfere
      | ScanRes.next ssw' sc' => scanInsts inst intersection rest (ip + 1) ssw' sc'

/-- Scan over the blocks of the CFG: blocks ending before the intersection
are skipped; the flags restart at false in each scanned block; an abort in
any block fails the whole check and passing beyond the intersection
succeeds outright. -/
def scanBlocks (env : Env) (inst : brw_inst) (intersection : brw_range) :
    List BBlock → Bool
  | [] => true
  | b :: rest =>
      if (env.ipRange b.id).last < intersection.start then
        scanBlocks env inst intersection rest
      else
        match scanInsts inst intersection b.insts (env.ipRange b.id).start false false with
        | ScanRes.interfere => false
        | ScanRes.noInterfere => true
        | ScanRes.next _ _ => scanBlocks env inst intersection rest

/-- Per-slice safety check (can_coalesce_vars in the source): vacuously safe
when the Live-Range Oracle reports no interference; otherwise one live range
must contain the other and the intersection of the two ranges is scanned for
conflicting writes. -/
def can_coalesce_vars (env : Env) (ranges : List brw_range) (cfg : List BBlock)
    (inst : brw_inst) (dst_var src_var : Nat) : Bool :=
  if env.vars_interfere src_var dst_var = false then true
  else
    let dst_range := ranges.getD dst_var default
    let src_range := ranges.getD src_var default
    if dst_range.contains src_range = false ∧ src_range.contains dst_range = false then
      false
    else
      scanBlocks env inst (intersect dst_range src_range) cfg

/-- Instructions of the last block of the CFG. -/
def lastBlockInsts (cfg : List BBlock) : List brw_inst :=
  match cfg.getLast? with
  | some b => b.insts
  | none => []

/-- First end-of-thread hardware send in a list of instructions (the
reverse walk of the last block stops at the first SEND with eot set,
whether or not it matches the candidate register). -/
def findEotSend : List brw_inst → Option brw_inst
  | [] => none
  | i :: rest =>
      if i.opcode = Opcode.SEND ∧ i.eot = true then some i
      else findEotSend rest

/-- Whether the send names the given register as payload source operand 2,
or as payload source operand 3 when it has at least four sources. -/
def sendUsesReg (send : brw_inst) (r : Nat) : Bool :=
  decide (((srcAt send 2).file = RegFile.VGRF ∧ (srcAt send 2).nr = r) ∨
          (4 ≤ send.src.length ∧ (srcAt send 3).file = RegFile.VGRF ∧
           (srcAt send 3).nr = r))

/-- Combined allocated size of the send's two payload operands (s2 + s3 in
the source): each contributes its register's allocated size when it is a
virtual register, and zero otherwise. -/
def eotPayload (env : Env) (send : brw_inst) : Nat :=
  (if (srcAt send 2).file = RegFile.VGRF then env.sizes (srcAt send 2).nr else 0) +
  (if 4 ≤ send.src.length ∧ (srcAt send 3).file = RegFile.VGRF
   then env.sizes (srcAt send 3).nr else 0)

/-- Hardware payload budget check (would_violate_eot_restriction in the
source): when the merge grows the register, the last end-of-thread send of
the last block that consumes the source register as payload operand 2 or 3
must keep its total payload within the fixed window, and the check rejects
when s2 + s3 plus the size increase exceeds 15 register units. -/
def would_violate_eot_restriction (env : Env) (cfg : List BBlock)
    (dst_reg src_reg : Nat) : Bool :=
  if env.sizes src_reg < env.sizes dst_reg then
    match findEotSend (lastBlockInsts cfg).reverse with
    | some send =>
        if sendUsesReg send src_reg then
          decide (15 < eotPayload env send + (env.sizes dst_reg - env.sizes src_reg))
        else false
    | none => false
  else false

/-- Replace the element at an index of a list by applying a function to it
(identity beyond the end). -/
def setAt {α : Type} (l : List α) (n : Nat) (f : α → α) : List α :=
  match l, n with
  | [], _ => []
  | a :: t, 0 => f a :: t
  | a :: t, Nat.succ m => a :: setAt t m f

/-- Instruction stored at position (block index, instruction index) of the
CFG; this is how the in-place iteration of the source reads the current
instruction. -/
def instAt (cfg : List BBlock) (p : Nat × Nat) : Option brw_inst :=
  match cfg.get? p.1 with
  | some b => b.insts.get? p.2
  | none => none

/-- Mutate the instruction at one position of the CFG in place. -/
def mutateAtPos (cfg : List BBlock) (p : Nat × Nat) (f : brw_inst → brw_inst) :
    List BBlock :=
  setAt cfg p.1 (fun b => { b with insts := setAt b.insts p.2 f })

/-- Apply a function to every instruction of the CFG. -/
def mapInsts (g : brw_inst → brw_inst) (cfg : List BBlock) : List BBlock :=
  cfg.map fun b => { b with insts := b.insts.map g }

/-- Mutate, through its stable id, an instruction recorded earlier (the
source stores a pointer in the mov table and writes through it). -/
def mutateById (cfg : List BBlock) (target : Nat) (f : brw_inst → brw_inst) :
    List BBlock :=
  mapInsts (fun i => if i.id = target then f i else i) cfg

/-- Clear a recorded copy into a no-op: NOP opcode, destination and all
sources replaced by the cleared placeholder (lines 339-343 of the source). -/
def nopOut (i : brw_inst) : brw_inst :=
  { i with opcode := Opcode.NOP,
           dst := reg_undef,
           src := i.src.map fun _ => reg_undef }

/-- Rewrite a recorded copy that carries a conditional modifier: its former
destination becomes source 0 and its destination becomes the null register
retyped to the destination's type (lines 353-354 of the source). -/
def cmodRewrite (i : brw_inst) : brw_inst :=
  { i with src := i.src.set 0 i.dst,
           dst := retype brw_null_reg i.dst.type }

/-- Rewriter action on one recorded copy: no-op it when it has no
conditional modifier, and keep it as a comparison otherwise. -/
def coalesceRewriteInst (i : brw_inst) : brw_inst :=
  if i.conditional_mod = 0 then nopOut i else cmodRewrite i

/-- Apply the rewriter to every recorded copy of the accepted attempt
(lines 334-356 of the source). -/
def rewriteRecorded (cfg : List BBlock) (movs : List (Option Nat)) (n : Nat) :
    List BBlock :=
  (List.range n).foldl
    (fun c k =>
      match movs.getD k none with
      | some target => mutateById c target coalesceRewriteInst
      | none => c) cfg

/-- Remap one operand of the absorbed register onto the destination
register, recomputing its sub-register offset through the slice table
(lines 359-372 of the source). -/
def remapReg (dst_reg src_reg : Nat) (offs : List Nat) (r : brw_reg) : brw_reg :=
  if r.file = RegFile.VGRF ∧ r.nr = src_reg then
    { r with nr := dst_reg,
             offset := r.offset % REG_SIZE +
               offs.getD (r.offset / REG_SIZE) 0 * REG_SIZE }
  else r

/-- Remap the destination and every source of one instruction. -/
def remapInst (dst_reg src_reg : Nat) (offs : List Nat) (i : brw_inst) : brw_inst :=
  { i with dst := remapReg dst_reg src_reg offs i.dst,
           src := i.src.map (remapReg dst_reg src_reg offs) }

/-- Remap every operand of the whole function (the source walks every
instruction of every block). -/
def remapAll (cfg : List BBlock) (dst_reg src_reg : Nat) (offs : List Nat) :
    List BBlock :=
  mapInsts (remapInst dst_reg src_reg offs) cfg

/-- Record count consecutive destination slice offsets base, base+1, ... in
the slice table starting at slot start (the per-slice assignments at lines
283-284 and 300-301 of the source). -/
def writeOffsets (l : List Nat) (start count base : Nat) : List Nat :=
  (List.range count).foldl (fun acc i => acc.set (start + i) (base + i)) l

/-- Fold each absorbed source slice's live range into the surviving
destination slice's live range (lines 376-379 of the source). -/
def applyMerges (env : Env) (ranges : List brw_range) (dst_reg src_reg : Nat)
    (offs : List Nat) (n : Nat) : List brw_range :=
  (List.range n).foldl
    (fun acc i =>
      acc.set (env.var_from_vgrf dst_reg + offs.getD i 0)
        (merge (acc.getD (env.var_from_vgrf dst_reg + offs.getD i 0) default)
               (acc.getD (env.var_from_vgrf src_reg + i) default))) ranges

/-- Validation of a complete attempt, slice by slice (lines 310-327 of the
source): the recorded destination offsets must be consecutive from the
first one, and each slice pair must pass the interference check and the
hardware payload budget check. -/
def validateSlices (env : Env) (ranges : List brw_range) (cfg : List BBlock)
    (inst : brw_inst) (dst_reg src_reg : Nat) (offs : List Nat) (n : Nat) : Bool :=
  (List.range n).all fun i =>
    decide (offs.getD i 0 = offs.getD 0 0 + i) &&
    can_coalesce_vars env ranges cfg inst
      (env.var_from_vgrf dst_reg + offs.getD i 0)
      (env.var_from_vgrf src_reg + i) &&
    !(would_violate_eot_restriction env cfg dst_reg src_reg)

/-- State threaded through the scan of the pass: the mutable CFG, the
mutable live-range table, the progress flag, the current attempt (source
register, destination register, source size, remaining-slice counter, slice
table, recorded copies by instruction id), plus two ghost counters that
record how many attempts reached validation and how many were applied; the
ghost counters alter no behavior and exist only to state theorems. -/
structure LoopState where
  cfg : List BBlock
  ranges : List brw_range
  progress : Bool
  src_reg : Option Nat
  dst_reg : Nat
  src_size : Nat
  channels_remaining : Int
  dst_reg_offset : List Nat
  mov : List (Option Nat)
  validated : Nat
  applied : Nat
deriving DecidableEq, Repr

/-- Attempt reset (lines 267-277 of the source): a new source register
starts a fresh attempt with a cleared recording table and the current
instruction's destination register. -/
def resetAttempt (env : Env) (st : LoopState) (inst : brw_inst) : LoopState :=
  { st with src_reg := some (srcAt inst 0).nr,
            src_size := env.sizes (srcAt inst 0).nr,
            channels_remaining := (env.sizes (srcAt inst 0).nr : Int),
            mov := List.replicate env.max_vgrf_size none,
            dst_reg := inst.dst.nr }

/-- Group accumulation (lines 282-304 of the source): a LOAD_PAYLOAD
records every slice at once, a MOV records the single slice at
source-offset / REG_SIZE; none signals a doubly-recorded slice. -/
def accumulate (st1 : LoopState) (inst : brw_inst) : Option LoopState :=
  if inst.opcode = Opcode.LOAD_PAYLOAD then
    some { st1 with
           dst_reg_offset :=
             writeOffsets st1.dst_reg_offset 0 st1.src_size
               (inst.dst.offset / REG_SIZE),
           mov := st1.mov.set 0 (some inst.id),
           channels_remaining :=
             st1.channels_remaining - (regs_written inst : Int) }
  else
    let offset := (srcAt inst 0).offset / REG_SIZE
    if (st1.mov.getD offset none).isSome then none
    else
      some { st1 with
             dst_reg_offset :=
               writeOffsets st1.dst_reg_offset offset
                 (max (inst.size_written / REG_SIZE) 1)
                 (inst.dst.offset / REG_SIZE),
             mov := st1.mov.set offset (some inst.id),
             channels_remaining :=
               st1.channels_remaining - (regs_written inst : Int) }

/-- Rewriting step of an accepted attempt (lines 332-380 of the source):
rewrite the recorded copies, remap every operand of the absorbed register,
and fold the absorbed live ranges into the surviving ones. -/
def applyAttempt (env : Env) (st4 : LoopState) : LoopState :=
  { st4 with
    cfg := remapAll (rewriteRecorded st4.cfg st4.mov st4.src_size)
             st4.dst_reg (st4.src_reg.getD 0) st4.dst_reg_offset,
    ranges := applyMerges env st4.ranges st4.dst_reg (st4.src_reg.getD 0)
                st4.dst_reg_offset st4.src_size,
    progress := true, applied := st4.applied + 1, src_reg := none }

/-- Completion step (lines 306-330 of the source): an incomplete attempt
just continues; a complete one is validated slice by slice (counted by the
ghost validated field) and, on success, applied. -/
def completeAttempt (env : Env) (st3 : LoopState) (inst : brw_inst) : LoopState :=
  if st3.channels_remaining ≠ 0 then st3
  else
    let st4 := { st3 with validated := st3.validated + 1 }
    if validateSlices env st4.ranges st4.cfg inst st4.dst_reg
         (st4.src_reg.getD 0) st4.dst_reg_offset st4.src_size then
      applyAttempt env st4
    else
      { st4 with src_reg := none }

/-- One iteration of the main scan of brw_opt_register_coalesce (lines
243-381 of the source) at one CFG position: classify, convert trivial
copies, reject LOAD_REG-defined sources, reset or extend the current
attempt, and on completion validate every slice and apply the rewrite. -/
def loopBody (env : Env) (st : LoopState) (p : Nat × Nat) : LoopState :=
  match instAt st.cfg p with
  | none => st
  | some inst =>
    if is_coalesce_candidate env inst = false then st
    else if is_nop_mov env inst = true then
      { st with cfg := mutateAtPos st.cfg p (fun i => { i with opcode := Opcode.NOP }),
                progress := true }
    else if env.defs (srcAt inst 0) = some Opcode.LOAD_REG then st
    else
      let st1 :=
        if st.src_reg ≠ some (srcAt inst 0).nr then resetAttempt env st inst
        else st
      if st1.dst_reg ≠ inst.dst.nr then st1
      else
        match accumulate st1 inst with
        | none => { st1 with channels_remaining := -1 }
        | some st3 => completeAttempt env st3 inst

/-- All CFG positions in program order; the scan never adds or removes
instructions, so the positions of the initial CFG drive the whole loop. -/
def positions (cfg : List BBlock) : List (Nat × Nat) :=
  (List.range cfg.length).foldr
    (fun bi acc =>
      ((List.range (cfg.getD bi default).insts.length).map (fun ii => (bi, ii))) ++ acc)
    []

/-- Run the main scan over a list of positions. -/
def runLoop (env : Env) : List (Nat × Nat) → LoopState → LoopState
  | [], st => st
  | p :: ps, st => runLoop env ps (loopBody env st p)

/-- Final cleanup: physically delete every instruction left as a NOP
(lines 384-388 of the source). -/
def removeNops (cfg : List BBlock) : List BBlock :=
  cfg.map fun b => { b with insts := b.insts.filter fun i => i.opcode ≠ Opcode.NOP }

/-- Cleanup step of the pass: the NOPs are deleted only when progress was
made. -/
def finishPass (st : LoopState) : LoopState :=
  if st.progress = true then { st with cfg := removeNops st.cfg } else st

/-- The register-coalescing pass (brw_opt_register_coalesce in the source):
scan every instruction once in program order, building, validating and
applying coalescing attempts, then delete the no-ops. -/
def brw_opt_register_coalesce (env : Env) (cfg : List BBlock)
    (ranges : List brw_range) : LoopState :=
  let st0 : LoopState :=
    { cfg := cfg, ranges := ranges, progress := false, src_reg := none,
      dst_reg := 0, src_size := 0, channels_remaining := 0,
      dst_reg_offset := List.replicate env.max_vgrf_size 0,
      mov := List.replicate env.max_vgrf_size none,
      validated := 0, applied := 0 }
  finishPass (runLoop env (positions cfg) st0)

/-- All instructions of the CFG in program order. -/
def instsOf (cfg : List BBlock) : List brw_inst :=
  (cfg.map BBlock.insts).flatten

/-- Bounded check over an optional value. -/
def optAll {α : Type} (p : α → Bool) : Option α → Bool
  | none => true
  | some a => p a

/-- Convenience constructor for a contiguous virtual-register operand. -/
def mkVgrf (nr off : Nat) : brw_reg :=
  ⟨RegFile.VGRF, nr, off, 0, 1, true, false, false⟩

/-- Neutral instruction used as a base for concrete examples. -/
def baseInst : brw_inst :=
  { id := 0, opcode := Opcode.OTHER, dst := reg_undef, src := [],
    size_written := 0, sizes_read := [], is_partial_write := false,
    saturate := false, conditional_mod := 0, force_writemask_all := false,
    eot := false, exec_size := 8, header_size := 0, block := 0 }

/-- Neutral environment used as a base for concrete examples. -/
def baseEnv : Env :=
  { sizes := fun _ => 1, vars_interfere := fun _ _ => false,
    var_from_vgrf := fun n => n, ipRange := fun _ => ⟨0, 0⟩,
    defs := fun _ => none, is_coalescing_payload := fun _ => true,
    type_size := fun _ => 4, max_vgrf_size := 8 }

/-- C3: when the Live-Range Oracle reports that the two slice variables
interfere and neither live range contains the other, can_coalesce_vars
aborts the attempt, returning false for every CFG whatsoever — in
particular no instruction scan takes place, since the result does not
depend on the instruction stream. -/
theorem C3_containment_required (env : Env) (ranges : List brw_range)
    (inst : brw_inst) (dst_var src_var : Nat)
    (hint : env.vars_interfere src_var dst_var = true)
    (h1 : (ranges.getD dst_var default).contains (ranges.getD src_var default) = false)
    (h2 : (ranges.getD src_var default).contains (ranges.getD dst_var default) = false) :
    ∀ cfg : List BBlock, can_coalesce_vars env ranges cfg inst dst_var src_var = false := by
  intro cfg
  unfold can_coalesce_vars
  rw [hint]
  simp only [h1, h2]
  simp

/-- Environment whose Live-Range Oracle reports interference between any
two variables. -/
def envInterfere : Env := { baseEnv with vars_interfere := fun _ _ => true }

/-- Two overlapping live ranges with no containment either way. -/
def rangesC3 : List brw_range := [⟨0, 5⟩, ⟨3, 8⟩]

theorem C3_witness :
    envInterfere.vars_interfere 1 0 = true ∧
    (rangesC3.getD 0 default).contains (rangesC3.getD 1 default) = false ∧
    (rangesC3.getD 1 default).contains (rangesC3.getD 0 default) = false ∧
    ∀ cfg : List BBlock, can_coalesce_vars envInterfere rangesC3 cfg baseInst 0 1 = false :=
  ⟨by decide, by decide, by decide,
   C3_containment_required envInterfere rangesC3 baseInst 0 1
     (by decide) (by decide) (by decide)⟩

/-- C10: on the code path that reaches the assertion in can_coalesce_vars —
the two slice variables interfere and one live range contains the other —
the computed intersection of the two live ranges is non-empty, provided
both live ranges are valid intervals; hence the assertion never fails under
that precondition. -/
theorem C10_intersection_nonempty (env : Env) (ranges : List brw_range)
    (dst_var src_var : Nat)
    (hint : env.vars_interfere src_var dst_var = true)
    (hd : (ranges.getD dst_var default).valid)
    (hs : (ranges.getD src_var default).valid)
    (hc : (ranges.getD dst_var default).contains (ranges.getD src_var default) = true ∨
          (ranges.getD src_var default).contains (ranges.getD dst_var default) = true) :
    (intersect (ranges.getD dst_var default) (ranges.getD src_var default)).is_empty
      = false := by
  set a := ranges.getD dst_var default with ha
  set b := ranges.getD src_var default with hb
  simp only [brw_range.contains, brw_range.valid, intersect, brw_range.is_empty,
    decide_eq_true_eq, decide_eq_false_iff_not, not_lt] at *
  rcases hc with h | h <;> omega

/-- Live ranges with the inner one contained in the outer one. -/
def rangesC10 : List brw_range := [⟨0, 10⟩, ⟨2, 8⟩]

theorem C10_witness :
    envInterfere.vars_interfere 1 0 = true ∧
    (rangesC10.getD 0 default).valid ∧
    (rangesC10.getD 1 default).valid ∧
    (rangesC10.getD 0 default).contains (rangesC10.getD 1 default) = true ∧
    (intersect (rangesC10.getD 0 default) (rangesC10.getD 1 default)).is_empty = false :=
  ⟨by decide, by decide, by decide, by decide,
   C10_intersection_nonempty envInterfere rangesC10 0 1
     (by decide) (by decide) (by decide) (Or.inl (by decide))⟩

/-- C9: the rewriter action on a recorded MOV that carries a conditional
modifier does not turn it into a no-op: the opcode is kept, the former
destination becomes the single source operand, the destination becomes the
null/discard register retyped to the former destination's numeric type, and
the conditional modifier (the flag-setting side effect) is preserved. -/
theorem C9_cmod_rewrite (i : brw_inst)
    (hmov : i.opcode = Opcode.MOV)
    (hcm : i.conditional_mod ≠ 0)
    (hsrc : i.src.length = 1) :
    (coalesceRewriteInst i).opcode = Opcode.MOV ∧
    (coalesceRewriteInst i).opcode ≠ Opcode.NOP ∧
    (coalesceRewriteInst i).src = [i.dst] ∧
    (coalesceRewriteInst i).dst.file = RegFile.ARF_NULL ∧
    (coalesceRewriteInst i).dst.type = i.dst.type ∧
    (coalesceRewriteInst i).conditional_mod = i.conditional_mod := by
  rcases List.length_eq_one.mp hsrc with ⟨a, ha⟩
  simp [coalesceRewriteInst, cmodRewrite, hcm, hmov, ha, retype, brw_null_reg]

/-- Conditional MOV used as the witness input of the rewrite theorem. -/
def movCmod : brw_inst :=
  { baseInst with id := 11, opcode := Opcode.MOV, dst := mkVgrf 4 0,
                  src := [mkVgrf 3 0], size_written := 32, sizes_read := [32],
                  conditional_mod := 2 }

theorem C9_witness :
    movCmod.opcode = Opcode.MOV ∧ movCmod.conditional_mod ≠ 0 ∧
    movCmod.src.length = 1 ∧
    ((coalesceRewriteInst movCmod).opcode = Opcode.MOV ∧
     (coalesceRewriteInst movCmod).opcode ≠ Opcode.NOP ∧
     (coalesceRewriteInst movCmod).src = [movCmod.dst] ∧
     (coalesceRewriteInst movCmod).dst.file = RegFile.ARF_NULL ∧
     (coalesceRewriteInst movCmod).dst.type = movCmod.dst.type ∧
     (coalesceRewriteInst movCmod).conditional_mod = movCmod.conditional_mod) :=
  ⟨by decide, by decide, by decide,
   C9_cmod_rewrite movCmod (by decide) (by decide) (by decide)⟩

/-- Sizes table for the payload-budget examples: register 1 (the coalesce
source) has 1 unit, register 2 (the destination) has 2 units, register 3
(the other payload operand) has 14 units, register 4 has 13 units. -/
def envEot : Env :=
  { baseEnv with sizes := fun n =>
      if n = 1 then 1 else if n = 2 then 2 else if n = 3 then 14
      else if n = 4 then 13 else 0 }

/-- End-of-thread send whose payload operands are registers 1 and 3, for a
total allocated payload of 1 + 14 = 15 units before the merge. -/
def sendEot : brw_inst :=
  { baseInst with
    id := 9
    opcode := Opcode.SEND
    src := [reg_undef, reg_undef, mkVgrf 1 0, mkVgrf 3 0]
    sizes_read := [0, 0, 32, 32]
    eot := true }

/-- CFG whose last block ends with the end-of-thread send. -/
def cfgEot : List BBlock := [⟨0, [sendEot]⟩]

/-- C1 counterexample: coalescing register 1 (1 unit) into register 2
(2 units) grows the payload by 1 unit, for a post-merge total of exactly
16 register units; the claim states a total of exactly 16 is accepted, but
the code rejects it (the comparison in the source is s2 + s3 + increase
> 15). -/
theorem C1_counterexample :
    eotPayload envEot sendEot + (envEot.sizes 2 - envEot.sizes 1) = 16 ∧
    would_violate_eot_restriction envEot cfgEot 2 1 = true := by decide

/-- C1 as amended: for a growing merge whose source register feeds the last
end-of-thread send of the last block as payload operand 2 or 3, the merge
is rejected if and only if the sum of the sizes of the send's two payload
operands plus the size increase exceeds 15 register units — a post-merge
total of exactly 15 is accepted and a total of 16 is rejected. -/
theorem C1_eot_budget (env : Env) (cfg : List BBlock) (dst_reg src_reg : Nat)
    (send : brw_inst)
    (hsz : env.sizes src_reg < env.sizes dst_reg)
    (hfind : findEotSend (lastBlockInsts cfg).reverse = some send)
    (huse : sendUsesReg send src_reg = true) :
    would_violate_eot_restriction env cfg dst_reg src_reg = true ↔
      15 < eotPayload env send + (env.sizes dst_reg - env.sizes src_reg) := by
  simp [would_violate_eot_restriction, hsz, hfind, huse]

/-- Sizes table for the boundary-accept witness: the merge grows register 1
by 1 unit next to a 13-unit co-payload, for a post-merge total of exactly
15 units, which the check accepts. -/
def sendEotW : brw_inst :=
  { sendEot with src := [reg_undef, reg_undef, mkVgrf 1 0, mkVgrf 4 0] }

/-- CFG for the boundary-accept witness. -/
def cfgEotW : List BBlock := [⟨0, [sendEotW]⟩]

theorem C1_witness :
    envEot.sizes 1 < envEot.sizes 2 ∧
    findEotSend (lastBlockInsts cfgEotW).reverse = some sendEotW ∧
    sendUsesReg sendEotW 1 = true ∧
    eotPayload envEot sendEotW + (envEot.sizes 2 - envEot.sizes 1) = 15 ∧
    (would_violate_eot_restriction envEot cfgEotW 2 1 = true ↔
      15 < eotPayload envEot sendEotW + (envEot.sizes 2 - envEot.sizes 1)) :=
  ⟨by decide, by decide, by decide, by decide,
   C1_eot_budget envEot cfgEotW 2 1 sendEotW (by decide) (by decide) (by decide)⟩

/-- C6 as amended: a coalesce candidate that is not itself a trivial no-op
copy and whose first source operand is defined by a LOAD_REG instruction is
rejected outright: the whole pass state — instruction stream, live ranges,
progress flag and attempt state — is left untouched, so the instruction is
not modified, not converted to a no-op, and never entered into a grouping
attempt. -/
theorem C6_load_reg_rejected (env : Env) (st : LoopState) (p : Nat × Nat)
    (i : brw_inst)
    (hat : instAt st.cfg p = some i)
    (hcand : is_coalesce_candidate env i = true)
    (hnop : is_nop_mov env i = false)
    (hdef : env.defs (srcAt i 0) = some Opcode.LOAD_REG) :
    loopBody env st p = st := by
  unfold loopBody
  rw [hat]
  simp [hcand, hnop, hdef]

/-- Oracle environment whose Definition Oracle attributes register 3 to a
LOAD_REG instruction. -/
def envLoadReg : Env :=
  { baseEnv with defs := fun r => if r.nr = 3 then some Opcode.LOAD_REG else none }

/-- Candidate MOV (not a trivial copy) whose source register 3 is defined
by a LOAD_REG. -/
def movFromLoadReg : brw_inst :=
  { baseInst with id := 21, opcode := Opcode.MOV, dst := mkVgrf 4 0,
                  src := [mkVgrf 3 0], size_written := 32, sizes_read := [32] }

/-- Fresh pass state holding only the candidate above. -/
def stLoadReg : LoopState :=
  { cfg := [⟨0, [movFromLoadReg]⟩], ranges := [], progress := false,
    src_reg := none, dst_reg := 0, src_size := 0, channels_remaining := 0,
    dst_reg_offset := List.replicate 8 0, mov := List.replicate 8 none,
    validated := 0, applied := 0 }

theorem C6_witness :
    instAt stLoadReg.cfg (0, 0) = some movFromLoadReg ∧
    is_coalesce_candidate envLoadReg movFromLoadReg = true ∧
    is_nop_mov envLoadReg movFromLoadReg = false ∧
    envLoadReg.defs (srcAt movFromLoadReg 0) = some Opcode.LOAD_REG ∧
    loopBody envLoadReg stLoadReg (0, 0) = stLoadReg :=
  ⟨by decide, by decide, by decide, by decide,
   C6_load_reg_rejected envLoadReg stLoadReg (0, 0) movFromLoadReg
     (by decide) (by decide) (by decide) (by decide)⟩

/-- Trivial self-copy (MOV v3, v3) whose source register 3 is defined by a
LOAD_REG according to the Definition Oracle. -/
def selfMovLoadReg : brw_inst :=
  { baseInst with id := 22, opcode := Opcode.MOV, dst := mkVgrf 3 0,
                  src := [mkVgrf 3 0], size_written := 32, sizes_read := [32] }

/-- Pass state holding only the trivial self-copy. -/
def stSelfLoadReg : LoopState :=
  { stLoadReg with cfg := [⟨0, [selfMovLoadReg]⟩] }

/-- C6 counterexample: a coalesce candidate whose first source operand is
defined by a LOAD_REG is nonetheless modified (converted to a no-op)
whenever it is a trivial self-copy, because the trivial-copy conversion
runs before the LOAD_REG exclusion in the source; so the claim's "the
instruction is not modified, not converted to a no-op" is false as
stated. -/
theorem C6_counterexample :
    envLoadReg.defs (srcAt selfMovLoadReg 0) = some Opcode.LOAD_REG ∧
    is_coalesce_candidate envLoadReg selfMovLoadReg = true ∧
    (loopBody envLoadReg stSelfLoadReg (0, 0)).cfg ≠ stSelfLoadReg.cfg ∧
    instAt (loopBody envLoadReg stSelfLoadReg (0, 0)).cfg (0, 0) =
      some { selfMovLoadReg with opcode := Opcode.NOP } := by decide


lemma getD_replicate_none {α : Type} (n k : Nat) :
    (List.replicate n (none : Option α)).getD k none = none := by
  induction n generalizing k with
  | zero => simp
  | succ m ih =>
      cases k with
      | zero => simp [List.replicate]
      | succ j => simp [List.replicate, List.getD_cons_succ, ih]

lemma loopBody_eq_none (env : Env) (st : LoopState) (p : Nat × Nat)
    (h : instAt st.cfg p = none) : loopBody env st p = st := by
  simp [loopBody, h]

lemma loopBody_eq_notcand (env : Env) (st : LoopState) (p : Nat × Nat)
    (i : brw_inst) (hat : instAt st.cfg p = some i)
    (hc : is_coalesce_candidate env i = false) : loopBody env st p = st := by
  simp [loopBody, hat, hc]

lemma loopBody_eq_nop (env : Env) (st : LoopState) (p : Nat × Nat)
    (i : brw_inst) (hat : instAt st.cfg p = some i)
    (hc : is_coalesce_candidate env i = true)
    (hn : is_nop_mov env i = true) :
    loopBody env st p =
      { st with cfg := mutateAtPos st.cfg p (fun j => { j with opcode := Opcode.NOP }),
                progress := true } := by
  simp [loopBody, hat, hc, hn]

lemma loopBody_eq_loadreg (env : Env) (st : LoopState) (p : Nat × Nat)
    (i : brw_inst) (hat : instAt st.cfg p = some i)
    (hc : is_coalesce_candidate env i = true)
    (hn : is_nop_mov env i = false)
    (hd : env.defs (srcAt i 0) = some Opcode.LOAD_REG) :
    loopBody env st p = st := by
  simp [loopBody, hat, hc, hn, hd]

lemma loopBody_eq_dstskip (env : Env) (st : LoopState) (p : Nat × Nat)
    (i : brw_inst) (hat : instAt st.cfg p = some i)
    (hc : is_coalesce_candidate env i = true)
    (hn : is_nop_mov env i = false)
    (hd : env.defs (srcAt i 0) ≠ some Opcode.LOAD_REG)
    (hr : st.src_reg = some (srcAt i 0).nr)
    (hdst : st.dst_reg ≠ i.dst.nr) :
    loopBody env st p = st := by
  simp [loopBody, hat, hc, hn, hd, hr, hdst]

lemma loopBody_eq_attempt (env : Env) (st : LoopState) (p : Nat × Nat)
    (i : brw_inst) (hat : instAt st.cfg p = some i)
    (hc : is_coalesce_candidate env i = true)
    (hn : is_nop_mov env i = false)
    (hd : env.defs (srcAt i 0) ≠ some Opcode.LOAD_REG)
    (hr : st.src_reg = some (srcAt i 0).nr)
    (hdst : st.dst_reg = i.dst.nr) :
    loopBody env st p =
      match accumulate st i with
      | none => { st with channels_remaining := -1 }
      | some st3 => completeAttempt env st3 i := by
  simp [loopBody, hat, hc, hn, hd, hr, hdst]

lemma loopBody_eq_attempt_reset (env : Env) (st : LoopState) (p : Nat × Nat)
    (i : brw_inst) (hat : instAt st.cfg p = some i)
    (hc : is_coalesce_candidate env i = true)
    (hn : is_nop_mov env i = false)
    (hd : env.defs (srcAt i 0) ≠ some Opcode.LOAD_REG)
    (hr : st.src_reg ≠ some (srcAt i 0).nr) :
    loopBody env st p =
      match accumulate (resetAttempt env st i) i with
      | none => { resetAttempt env st i with channels_remaining := -1 }
      | some st3 => completeAttempt env st3 i := by
  simp [loopBody, hat, hc, hn, hd, hr, resetAttempt]

lemma accumulate_some (st1 st3 : LoopState) (i : brw_inst)
    (h : accumulate st1 i = some st3) :
    st3.cfg = st1.cfg ∧ st3.ranges = st1.ranges ∧ st3.progress = st1.progress ∧
    st3.src_reg = st1.src_reg ∧ st3.dst_reg = st1.dst_reg ∧
    st3.src_size = st1.src_size ∧
    st3.channels_remaining = st1.channels_remaining - (regs_written i : Int) ∧
    st3.validated = st1.validated ∧ st3.applied = st1.applied := by
  simp only [accumulate] at h
  split at h
  · cases h
    simp
  · split at h
    · cases h
    · cases h
      simp

lemma completeAttempt_stay (env : Env) (st3 : LoopState) (i : brw_inst)
    (h : st3.channels_remaining ≠ 0) : completeAttempt env st3 i = st3 := by
  simp [completeAttempt, h]

lemma accumulate_dup_none (st1 : LoopState) (i : brw_inst)
    (hpl : i.opcode ≠ Opcode.LOAD_PAYLOAD)
    (hdup : (st1.mov.getD ((srcAt i 0).offset / REG_SIZE) none).isSome = true) :
    accumulate st1 i = none := by
  rw [List.getD_eq_getElem?_getD] at hdup
  simp [accumulate, hpl, hdup]

/-- C7: when a MOV candidate of the current attempt records a source slice
already recorded by an earlier instruction of the attempt, the only state
change is setting the remaining-slice counter to -1 — the CFG, the live
ranges, the slice table, the recorded copies and the ghost counters are all
untouched, so the attempt is neither validated nor applied at this step.
Moreover, from any state whose remaining-slice counter is negative, a scan
step either keeps the counter negative and leaves the validation and
application counters unchanged (the invalidated attempt can never reach
completion, be validated, or be applied), or it visits an instruction whose
source register starts a fresh attempt, discarding the invalidated one; in
both cases scanning continues with later instructions. -/
theorem C7_double_slice_invalidates (env : Env) (st : LoopState) (p : Nat × Nat)
    (i : brw_inst)
    (hat : instAt st.cfg p = some i)
    (hcand : is_coalesce_candidate env i = true)
    (hnop : is_nop_mov env i = false)
    (hdef : env.defs (srcAt i 0) ≠ some Opcode.LOAD_REG)
    (hsrc : st.src_reg = some (srcAt i 0).nr)
    (hdst : st.dst_reg = i.dst.nr)
    (hpl : i.opcode ≠ Opcode.LOAD_PAYLOAD)
    (hdup : (st.mov.getD ((srcAt i 0).offset / REG_SIZE) none).isSome = true) :
    loopBody env st p = { st with channels_remaining := -1 } ∧
    (∀ (st' : LoopState) (q : Nat × Nat), st'.channels_remaining < 0 →
      ((loopBody env st' q).channels_remaining < 0 ∧
       (loopBody env st' q).validated = st'.validated ∧
       (loopBody env st' q).applied = st'.applied) ∨
      (∃ j, instAt st'.cfg q = some j ∧ st'.src_reg ≠ some (srcAt j 0).nr)) := by
  constructor
  · rw [loopBody_eq_attempt env st p i hat hcand hnop hdef hsrc hdst,
        accumulate_dup_none st i hpl hdup]
  · intro st' q hneg
    cases hat' : instAt st'.cfg q with
    | none =>
        rw [loopBody_eq_none env st' q hat']
        exact Or.inl ⟨hneg, rfl, rfl⟩
    | some j =>
        rcases Bool.eq_false_or_eq_true (is_coalesce_candidate env j) with hc | hc
        case inr =>
          rw [loopBody_eq_notcand env st' q j hat' hc]
          exact Or.inl ⟨hneg, rfl, rfl⟩
        rcases Bool.eq_false_or_eq_true (is_nop_mov env j) with hn | hn
        case inl =>
          rw [loopBody_eq_nop env st' q j hat' hc hn]
          exact Or.inl ⟨hneg, rfl, rfl⟩
        by_cases hd : env.defs (srcAt j 0) = some Opcode.LOAD_REG
        case pos =>
          rw [loopBody_eq_loadreg env st' q j hat' hc hn hd]
          exact Or.inl ⟨hneg, rfl, rfl⟩
        by_cases hr : st'.src_reg = some (srcAt j 0).nr
        case neg => exact Or.inr ⟨j, rfl, hr⟩
        by_cases hdst' : st'.dst_reg = j.dst.nr
        case neg =>
          rw [loopBody_eq_dstskip env st' q j hat' hc hn hd hr hdst']
          exact Or.inl ⟨hneg, rfl, rfl⟩
        have heq := loopBody_eq_attempt env st' q j hat' hc hn hd hr hdst'
        cases hacc : accumulate st' j with
        | none =>
            simp only [hacc] at heq
            rw [heq]
            exact Or.inl ⟨show (-1 : Int) < 0 by norm_num, rfl, rfl⟩
        | some st3 =>
            simp only [hacc] at heq
            obtain ⟨-, -, -, -, -, -, hch, hva, hap⟩ :=
              accumulate_some st' st3 j hacc
            have hnn : (0 : Int) ≤ (regs_written j : Int) := by positivity
            have hch3 : st3.channels_remaining ≠ 0 := by omega
            rw [completeAttempt_stay env st3 j hch3] at heq
            rw [heq]
            exact Or.inl ⟨by omega, hva, hap⟩

/-- Attempt state in which source slice 0 was already recorded (by the
instruction with id 7) when a second MOV from the same slice arrives. -/
def movDup : brw_inst :=
  { baseInst with id := 23, opcode := Opcode.MOV, dst := mkVgrf 4 0,
                  src := [mkVgrf 3 0], size_written := 32, sizes_read := [32] }

/-- Pass state mid-attempt: source register 3 being grouped into register
4, slice 0 already recorded, one slice still missing. -/
def stDup : LoopState :=
  { cfg := [⟨0, [movDup]⟩], ranges := [], progress := false,
    src_reg := some 3, dst_reg := 4, src_size := 2, channels_remaining := 1,
    dst_reg_offset := List.replicate 8 0,
    mov := (List.replicate 8 (none : Option Nat)).set 0 (some 7),
    validated := 0, applied := 0 }

theorem C7_witness :
    instAt stDup.cfg (0, 0) = some movDup ∧
    is_coalesce_candidate baseEnv movDup = true ∧
    is_nop_mov baseEnv movDup = false ∧
    baseEnv.defs (srcAt movDup 0) ≠ some Opcode.LOAD_REG ∧
    stDup.src_reg = some (srcAt movDup 0).nr ∧
    stDup.dst_reg = movDup.dst.nr ∧
    movDup.opcode ≠ Opcode.LOAD_PAYLOAD ∧
    (stDup.mov.getD ((srcAt movDup 0).offset / REG_SIZE) none).isSome = true ∧
    (loopBody baseEnv stDup (0, 0) = { stDup with channels_remaining := -1 } ∧
     (∀ (st' : LoopState) (q : Nat × Nat), st'.channels_remaining < 0 →
       ((loopBody baseEnv st' q).channels_remaining < 0 ∧
        (loopBody baseEnv st' q).validated = st'.validated ∧
        (loopBody baseEnv st' q).applied = st'.applied) ∨
       (∃ j, instAt st'.cfg q = some j ∧ st'.src_reg ≠ some (srcAt j 0).nr))) :=
  ⟨by decide, by decide, by decide, by decide, by decide, by decide, by decide,
   by decide,
   C7_double_slice_invalidates baseEnv stDup (0, 0) movDup
     (by decide) (by decide) (by decide) (by decide) (by decide) (by decide)
     (by decide) (by decide)⟩

lemma completeAttempt_cfg_ranges (env : Env) (st3 : LoopState) (i : brw_inst) :
    ((completeAttempt env st3 i).cfg = st3.cfg ∧
     (completeAttempt env st3 i).ranges = st3.ranges) ∨
    (completeAttempt env st3 i).applied = st3.applied + 1 := by
  unfold completeAttempt
  by_cases h0 : st3.channels_remaining ≠ 0
  · simp [h0]
  · simp only [h0, if_false, Bool.false_eq_true]
    split
    · right
      rfl
    · left
      exact ⟨rfl, rfl⟩

/-- C2: a scan step that is not a trivial-copy conversion and does not
apply a validated attempt (its ghost application counter is unchanged,
which covers every failed validation: interference, payload budget,
out-of-order slice mapping, or an incomplete or invalidated attempt)
leaves the instruction stream and every live range unchanged — no
instruction, operand, or live-range mutation happens before the whole
attempt has validated. -/
theorem C2_failed_attempt_no_mutation (env : Env) (st : LoopState) (p : Nat × Nat)
    (hnn : optAll (fun i => !(is_coalesce_candidate env i && is_nop_mov env i))
             (instAt st.cfg p) = true)
    (happ : (loopBody env st p).applied = st.applied) :
    (loopBody env st p).cfg = st.cfg ∧ (loopBody env st p).ranges = st.ranges := by
  cases hat : instAt st.cfg p with
  | none =>
      rw [loopBody_eq_none env st p hat]
      exact ⟨rfl, rfl⟩
  | some j =>
      rcases Bool.eq_false_or_eq_true (is_coalesce_candidate env j) with hc | hc
      case inr =>
        rw [loopBody_eq_notcand env st p j hat hc]
        exact ⟨rfl, rfl⟩
      have hn : is_nop_mov env j = false := by
        rw [hat] at hnn
        simpa [optAll, hc] using hnn
      by_cases hd : env.defs (srcAt j 0) = some Opcode.LOAD_REG
      case pos =>
        rw [loopBody_eq_loadreg env st p j hat hc hn hd]
        exact ⟨rfl, rfl⟩
      by_cases hr : st.src_reg = some (srcAt j 0).nr
      · by_cases hdst : st.dst_reg = j.dst.nr
        · have heq := loopBody_eq_attempt env st p j hat hc hn hd hr hdst
          cases hacc : accumulate st j with
          | none =>
              simp only [hacc] at heq
              rw [heq]
              exact ⟨rfl, rfl⟩
          | some st3 =>
              simp only [hacc] at heq
              obtain ⟨h3cfg, h3rg, -, -, -, -, -, -, h3ap⟩ :=
                accumulate_some st st3 j hacc
              rcases completeAttempt_cfg_ranges env st3 j with ⟨e1, e2⟩ | e3
              · rw [heq]
                exact ⟨e1.trans h3cfg, e2.trans h3rg⟩
              · exfalso
                rw [heq] at happ
                omega
        · rw [loopBody_eq_dstskip env st p j hat hc hn hd hr hdst]
          exact ⟨rfl, rfl⟩
      · have heq := loopBody_eq_attempt_reset env st p j hat hc hn hd hr
        cases hacc : accumulate (resetAttempt env st j) j with
        | none =>
            simp only [hacc] at heq
            rw [heq]
            exact ⟨rfl, rfl⟩
        | some st3 =>
            simp only [hacc] at heq
            obtain ⟨h3cfg, h3rg, -, -, -, -, -, -, h3ap⟩ :=
              accumulate_some _ st3 j hacc
            rcases completeAttempt_cfg_ranges env st3 j with ⟨e1, e2⟩ | e3
            · rw [heq]
              refine ⟨?_, ?_⟩
              · rw [e1, h3cfg]
                rfl
              · rw [e2, h3rg]
                rfl
            · exfalso
              rw [heq] at happ
              have h4 : st3.applied = st.applied := by
                rw [h3ap]
                rfl
              omega

/-- Candidate MOV from register 3 to register 4 used by the failing-attempt
witness. -/
def movFail : brw_inst :=
  { baseInst with id := 24, opcode := Opcode.MOV, dst := mkVgrf 4 0,
                  src := [mkVgrf 3 0], size_written := 32, sizes_read := [32] }

/-- Fresh pass state whose single candidate completes an attempt that fails
validation: every variable pair interferes and the two live ranges (entries
3 and 4) overlap without containment. -/
def stFail : LoopState :=
  { cfg := [⟨0, [movFail]⟩],
    ranges := [⟨0, 0⟩, ⟨0, 0⟩, ⟨0, 0⟩, ⟨0, 5⟩, ⟨3, 8⟩],
    progress := false, src_reg := none, dst_reg := 0, src_size := 0,
    channels_remaining := 0, dst_reg_offset := List.replicate 8 0,
    mov := List.replicate 8 none, validated := 0, applied := 0 }

theorem C2_witness :
    optAll (fun i => !(is_coalesce_candidate envInterfere i &&
                       is_nop_mov envInterfere i))
      (instAt stFail.cfg (0, 0)) = true ∧
    (loopBody envInterfere stFail (0, 0)).applied = stFail.applied ∧
    (loopBody envInterfere stFail (0, 0)).validated = stFail.validated + 1 ∧
    ((loopBody envInterfere stFail (0, 0)).cfg = stFail.cfg ∧
     (loopBody envInterfere stFail (0, 0)).ranges = stFail.ranges) :=
  ⟨by decide, by decide, by decide,
   C2_failed_attempt_no_mutation envInterfere stFail (0, 0) (by decide) (by decide)⟩

/-- Instruction writing the source register's region before the copy (the
first, tolerated source write of the C4 counterexample). -/
def w1C4 : brw_inst :=
  { baseInst with id := 1, dst := mkVgrf 1 0, size_written := 32 }

/-- Instruction that both writes the source register's region and reads the
destination register's region (the aborting instruction of the C4
counterexample). -/
def w2C4 : brw_inst :=
  { baseInst with id := 2, dst := mkVgrf 1 0, src := [mkVgrf 2 0],
                  size_written := 32, sizes_read := [32] }

/-- The coalescing copy of the C4 counterexample: MOV from register 1 to
register 2, in the same block as both writes. -/
def instC4 : brw_inst :=
  { baseInst with id := 100, opcode := Opcode.MOV, dst := mkVgrf 2 0,
                  src := [mkVgrf 1 0], size_written := 32, sizes_read := [32] }

/-- Live ranges for the C4 counterexample: the destination's range [0,10]
contains the source's range [0,8]. -/
def rangesC4 : List brw_range := [⟨0, 10⟩, ⟨0, 8⟩]

/-- Single-block CFG of the C4 counterexample, in program order: tolerated
source write, aborting source write, copy. -/
def cfgC4 : List BBlock := [⟨0, [w1C4, w2C4, instC4]⟩]

/-- Oracle for the C4 counterexample: interference everywhere, block 0
spans program points 0 to 10. -/
def envC4 : Env :=
  { baseEnv with vars_interfere := fun _ _ => true,
                 ipRange := fun _ => ⟨0, 10⟩ }

/-- C4 counterexample: after the first source write is tolerated, the scan
reaches a second instruction whose write overlaps the region of the source
the copy reads and which satisfies all three tolerance conditions — the
copy has not been passed, it sits in the copy's basic block, and it adds no
force-full-execution-mask — yet the scan aborts (the instruction also reads
the destination's region after the tolerated source write), so the claimed
"tolerated if and only if the three conditions hold" fails in the
tolerated-if direction. -/
theorem C4_counterexample :
    scanInsts instC4
        (intersect (rangesC4.getD 0 default) (rangesC4.getD 1 default))
        [w1C4] 0 false false = ScanRes.next true false ∧
    regions_overlap w2C4.dst w2C4.size_written (srcAt instC4 0)
      (sizeReadAt instC4 0) = true ∧
    (false = false ∧ w2C4.block = instC4.block ∧
     ¬(w2C4.force_writemask_all = true ∧ instC4.force_writemask_all = false)) ∧
    scanStep instC4 w2C4
      (intersect (rangesC4.getD 0 default) (rangesC4.getD 1 default))
      1 true false = ScanRes.interfere ∧
    can_coalesce_vars envC4 rangesC4 cfgC4 instC4 0 1 = false := by decide

/-- C4 as amended: during the interference scan, a scan instruction other
than the coalescing one, at a program point inside the intersection, whose
write overlaps the region of the source register the coalescing instruction
reads, is tolerated (the scan continues, recording the source write) if and
only if the three conditions hold — the coalescing instruction has not been
passed, the writer is in the coalescing instruction's block, and the write
does not add force-full-execution-mask — provided that the write does not
also overlap the destination's written region and that the instruction does
not trip the destination-read check (a read of the destination after an
earlier tolerated source write, before the copy), either of which aborts
the attempt independently. -/
theorem C4_src_write_tolerance (inst scan_inst : brw_inst)
    (intersection : brw_range) (scan_ip : Int) (ssw sc : Bool)
    (h1 : intersection.start ≤ scan_ip)
    (h2 : scan_ip ≤ intersection.last)
    (hid : scan_inst.id ≠ inst.id)
    (hw : regions_overlap scan_inst.dst scan_inst.size_written
            (srcAt inst 0) (sizeReadAt inst 0) = true)
    (hnd : regions_overlap scan_inst.dst scan_inst.size_written
             inst.dst inst.size_written = false)
    (hnr : ¬(ssw = true ∧ sc = false ∧ readsOverlapDst scan_inst inst = true)) :
    (scanStep inst scan_inst intersection scan_ip ssw sc ≠ ScanRes.interfere ↔
      (sc = false ∧ scan_inst.block = inst.block ∧
       ¬(scan_inst.force_writemask_all = true ∧
         inst.force_writemask_all = false))) ∧
    ((sc = false ∧ scan_inst.block = inst.block ∧
      ¬(scan_inst.force_writemask_all = true ∧
        inst.force_writemask_all = false)) →
      scanStep inst scan_inst intersection scan_ip ssw sc =
        ScanRes.next true sc) := by
  have hlt : ¬(scan_ip < intersection.start) := not_lt.mpr h1
  have hgt : ¬(intersection.last < scan_ip) := not_lt.mpr h2
  unfold scanStep
  rw [if_neg hlt, if_neg hid, if_neg hgt, if_neg hnr, if_neg (by simp [hnd]),
      if_pos hw]
  by_cases hb : scan_inst.block = inst.block
  · by_cases hf : scan_inst.force_writemask_all = true ∧
        inst.force_writemask_all = false
    · rcases Bool.eq_false_or_eq_true sc with hsc | hsc <;> subst hsc <;>
        simp [hb, hf]
    · rcases Bool.eq_false_or_eq_true sc with hsc | hsc <;> subst hsc <;>
        simp [hb, hf]
  · rcases Bool.eq_false_or_eq_true sc with hsc | hsc <;> subst hsc <;>
      simp [hb]

theorem C4_witness :
    (intersect (rangesC4.getD 0 default) (rangesC4.getD 1 default)).start ≤ 0 ∧
    (0 : Int) ≤ (intersect (rangesC4.getD 0 default) (rangesC4.getD 1 default)).last ∧
    w1C4.id ≠ instC4.id ∧
    regions_overlap w1C4.dst w1C4.size_written (srcAt instC4 0)
      (sizeReadAt instC4 0) = true ∧
    regions_overlap w1C4.dst w1C4.size_written instC4.dst
      instC4.size_written = false ∧
    ¬(false = true ∧ false = false ∧ readsOverlapDst w1C4 instC4 = true) ∧
    ((scanStep instC4 w1C4
        (intersect (rangesC4.getD 0 default) (rangesC4.getD 1 default))
        0 false false ≠ ScanRes.interfere ↔
      (false = false ∧ w1C4.block = instC4.block ∧
       ¬(w1C4.force_writemask_all = true ∧
         instC4.force_writemask_all = false))) ∧
     ((false = false ∧ w1C4.block = instC4.block ∧
       ¬(w1C4.force_writemask_all = true ∧
         instC4.force_writemask_all = false)) →
       scanStep instC4 w1C4
         (intersect (rangesC4.getD 0 default) (rangesC4.getD 1 default))
         0 false false = ScanRes.next true false)) :=
  ⟨by decide, by decide, by decide, by decide, by decide, by decide,
   C4_src_write_tolerance instC4 w1C4
     (intersect (rangesC4.getD 0 default) (rangesC4.getD 1 default))
     0 false false (by decide) (by decide) (by decide) (by decide) (by decide)
     (by decide)⟩

lemma getD_set_ne {α : Type} (l : List α) (m x : Nat) (a d : α) (h : m ≠ x) :
    (l.set m a).getD x d = l.getD x d := by
  simp [List.getD_eq_getElem?_getD, List.getElem?_set_ne h]

lemma getD_set_self {α : Type} (l : List α) (m : Nat) (a d : α)
    (h : m < l.length) : (l.set m a).getD m d = a := by
  simp [List.getD_eq_getElem?_getD, List.getElem?_set_self h]

/-- Destination slice variable i of an attempt: the destination register's
variable base plus the recorded slice offset (dst_var[i] in the source). -/
def dvar (env : Env) (dst_reg : Nat) (offs : List Nat) (i : Nat) : Nat :=
  env.var_from_vgrf dst_reg + offs.getD i 0

/-- Source slice variable i of an attempt: the source register's variable
base plus the slice index (src_var[i] in the source). -/
def svar (env : Env) (src_reg i : Nat) : Nat :=
  env.var_from_vgrf src_reg + i

lemma applyMerges_succ (env : Env) (r : List brw_range) (d s : Nat)
    (offs : List Nat) (n : Nat) :
    applyMerges env r d s offs (n + 1) =
      (applyMerges env r d s offs n).set (dvar env d offs n)
        (merge ((applyMerges env r d s offs n).getD (dvar env d offs n) default)
               ((applyMerges env r d s offs n).getD (svar env s n) default)) := by
  unfold applyMerges dvar svar
  rw [List.range_succ, List.foldl_append]
  rfl

lemma applyMerges_length (env : Env) (r : List brw_range) (d s : Nat)
    (offs : List Nat) (n : Nat) :
    (applyMerges env r d s offs n).length = r.length := by
  induction n with
  | zero => rfl
  | succ m ih => rw [applyMerges_succ, List.length_set, ih]

lemma applyMerges_untouched (env : Env) (r : List brw_range) (d s : Nat)
    (offs : List Nat) (n : Nat) (x : Nat)
    (h : ∀ i, i < n → dvar env d offs i ≠ x) :
    (applyMerges env r d s offs n).getD x default = r.getD x default := by
  induction n with
  | zero => rfl
  | succ m ih =>
      rw [applyMerges_succ, getD_set_ne _ _ _ _ _ (h m (Nat.lt_succ_self m)),
          ih (fun i hi => h i (Nat.lt_succ_of_lt hi))]

/-- C8: after a successful merge, the surviving destination slice's live
range is exactly the interval union of the old destination-slice range and
the absorbed source-slice range, for every slice of the attempt (assuming
the slice variables are in bounds and the destination variables are
distinct from each other and from the source variables, which holds because
distinct registers own disjoint variable ranges); and when both input
ranges are valid intervals, the union is a valid interval containing
both. -/
theorem C8_merge_is_interval_union (env : Env) (r : List brw_range)
    (d s : Nat) (offs : List Nat) (n k : Nat)
    (hk : k < n)
    (hbound : ∀ i, i < n → dvar env d offs i < r.length)
    (hinj : ∀ i, i < n → ∀ j, j < n → i ≠ j →
      dvar env d offs i ≠ dvar env d offs j)
    (hdisj : ∀ i, i < n → ∀ j, j < n → dvar env d offs i ≠ svar env s j) :
    (applyMerges env r d s offs n).getD (dvar env d offs k) default =
      merge (r.getD (dvar env d offs k) default)
            (r.getD (svar env s k) default) ∧
    ((r.getD (dvar env d offs k) default).valid →
     (r.getD (svar env s k) default).valid →
     (merge (r.getD (dvar env d offs k) default)
            (r.getD (svar env s k) default)).valid ∧
     (merge (r.getD (dvar env d offs k) default)
            (r.getD (svar env s k) default)).contains
       (r.getD (dvar env d offs k) default) = true ∧
     (merge (r.getD (dvar env d offs k) default)
            (r.getD (svar env s k) default)).contains
       (r.getD (svar env s k) default) = true) := by
  constructor
  · induction n with
    | zero => omega
    | succ m ih =>
        rcases Nat.lt_succ_iff_lt_or_eq.mp hk with hkm | hkm
        · rw [applyMerges_succ,
              getD_set_ne _ _ _ _ _
                (hinj m (Nat.lt_succ_self m) k (Nat.lt_succ_of_lt hkm)
                  (by omega))]
          exact ih hkm (fun i hi => hbound i (Nat.lt_succ_of_lt hi))
            (fun i hi j hj hij =>
              hinj i (Nat.lt_succ_of_lt hi) j (Nat.lt_succ_of_lt hj) hij)
            (fun i hi j hj =>
              hdisj i (Nat.lt_succ_of_lt hi) j (Nat.lt_succ_of_lt hj))
        · subst hkm
          rw [applyMerges_succ,
              getD_set_self _ _ _ _
                (by rw [applyMerges_length]
                    exact hbound k (Nat.lt_succ_self k)),
              applyMerges_untouched _ _ _ _ _ _ _
                (fun i hi =>
                  hinj i (Nat.lt_succ_of_lt hi) k (Nat.lt_succ_self k)
                    (by omega)),
              applyMerges_untouched _ _ _ _ _ _ _
                (fun i hi =>
                  hdisj i (Nat.lt_succ_of_lt hi) k (Nat.lt_succ_self k))]
  · intro hd hs
    unfold brw_range.valid at *
    unfold merge brw_range.contains
    refine ⟨?_, ?_, ?_⟩
    · simp only []
      omega
    · simp only [decide_eq_true_eq]
      omega
    · simp only [decide_eq_true_eq]
      omega

/-- Live-range table for the merge witness: variables 0 and 1 belong to the
absorbed source register 0, variables 3 and 4 to the surviving destination
register 3. -/
def rangesC8 : List brw_range := [⟨0, 2⟩, ⟨5, 9⟩, ⟨0, 0⟩, ⟨1, 4⟩, ⟨6, 8⟩]

/-- Slice table for the merge witness: destination slices 0 and 1. -/
def offsC8 : List Nat := [0, 1]

theorem C8_witness :
    (0 : Nat) < 2 ∧
    (∀ i, i < 2 → dvar baseEnv 3 offsC8 i < rangesC8.length) ∧
    (∀ i, i < 2 → ∀ j, j < 2 → i ≠ j →
      dvar baseEnv 3 offsC8 i ≠ dvar baseEnv 3 offsC8 j) ∧
    (∀ i, i < 2 → ∀ j, j < 2 → dvar baseEnv 3 offsC8 i ≠ svar baseEnv 0 j) ∧
    ((applyMerges baseEnv rangesC8 3 0 offsC8 2).getD
        (dvar baseEnv 3 offsC8 0) default =
      merge (rangesC8.getD (dvar baseEnv 3 offsC8 0) default)
            (rangesC8.getD (svar baseEnv 0 0) default) ∧
     ((rangesC8.getD (dvar baseEnv 3 offsC8 0) default).valid →
      (rangesC8.getD (svar baseEnv 0 0) default).valid →
      (merge (rangesC8.getD (dvar baseEnv 3 offsC8 0) default)
             (rangesC8.getD (svar baseEnv 0 0) default)).valid ∧
      (merge (rangesC8.getD (dvar baseEnv 3 offsC8 0) default)
             (rangesC8.getD (svar baseEnv 0 0) default)).contains
        (rangesC8.getD (dvar baseEnv 3 offsC8 0) default) = true ∧
      (merge (rangesC8.getD (dvar baseEnv 3 offsC8 0) default)
             (rangesC8.getD (svar baseEnv 0 0) default)).contains
        (rangesC8.getD (svar baseEnv 0 0) default) = true)) :=
  ⟨by decide, by decide, by decide, by decide,
   C8_merge_is_interval_union baseEnv rangesC8 3 0 offsC8 2 0
     (by decide) (by decide) (by decide) (by decide)⟩

/-- Every instruction of the CFG carrying the given id is a NOP. -/
def idIsNop (cfg : List BBlock) (x : Nat) : Prop :=
  ∀ j ∈ instsOf cfg, j.id = x → j.opcode = Opcode.NOP

lemma instsOf_mapInsts (g : brw_inst → brw_inst) (cfg : List BBlock) :
    instsOf (mapInsts g cfg) = (instsOf cfg).map g := by
  induction cfg with
  | nil => rfl
  | cons b rest ih =>
      simp [instsOf, mapInsts] at ih ⊢
      rw [ih]

lemma idIsNop_mapInsts (g : brw_inst → brw_inst) (cfg : List BBlock) (x : Nat)
    (hg : ∀ j, (g j).id = j.id ∧
      ((g j).opcode = j.opcode ∨ (g j).opcode = Opcode.NOP))
    (h : idIsNop cfg x) : idIsNop (mapInsts g cfg) x := by
  intro j hj hid
  rw [instsOf_mapInsts] at hj
  rcases List.mem_map.mp hj with ⟨k, hk, rfl⟩
  rcases hg k with ⟨hgid, hop | hop⟩
  · rw [hop]
    exact h k hk (by rw [← hgid, hid])
  · exact hop

lemma idIsNop_mutateById (cfg : List BBlock) (t x : Nat)
    (h : idIsNop cfg x) :
    idIsNop (mutateById cfg t coalesceRewriteInst) x := by
  apply idIsNop_mapInsts _ _ _ _ h
  intro j
  by_cases hj : j.id = t
  · rw [if_pos hj]
    unfold coalesceRewriteInst nopOut cmodRewrite
    by_cases hcm : j.conditional_mod = 0
    · rw [if_pos hcm]
      exact ⟨rfl, Or.inr rfl⟩
    · rw [if_neg hcm]
      exact ⟨rfl, Or.inl rfl⟩
  · rw [if_neg hj]
    exact ⟨rfl, Or.inl rfl⟩

lemma idIsNop_rewriteRecorded (cfg : List BBlock) (movs : List (Option Nat))
    (n : Nat) (x : Nat) (h : idIsNop cfg x) :
    idIsNop (rewriteRecorded cfg movs n) x := by
  unfold rewriteRecorded
  induction List.range n generalizing cfg with
  | nil => exact h
  | cons a rest ih =>
      simp only [List.foldl_cons]
      apply ih
      cases movs.getD a none with
      | none => exact h
      | some t => exact idIsNop_mutateById cfg t x h

lemma idIsNop_remapAll (cfg : List BBlock) (d s : Nat) (offs : List Nat)
    (x : Nat) (h : idIsNop cfg x) : idIsNop (remapAll cfg d s offs) x := by
  apply idIsNop_mapInsts _ _ _ _ h
  intro j
  exact ⟨rfl, Or.inl rfl⟩

lemma mem_setAt {α : Type} (l : List α) (n : Nat) (f : α → α) (j : α)
    (hj : j ∈ setAt l n f) : j ∈ l ∨ ∃ k, k ∈ l ∧ j = f k := by
  induction l generalizing n with
  | nil => cases hj
  | cons a t ih =>
      cases n with
      | zero =>
          simp only [setAt] at hj
          rcases List.mem_cons.mp hj with rfl | hj2
          · exact Or.inr ⟨a, List.mem_cons_self a t, rfl⟩
          · exact Or.inl (List.mem_cons_of_mem a hj2)
      | succ m =>
          simp only [setAt] at hj
          rcases List.mem_cons.mp hj with rfl | hj2
          · simp
          · rcases ih m hj2 with h | ⟨k, hk, rfl⟩
            · exact Or.inl (List.mem_cons_of_mem a h)
            · exact Or.inr ⟨k, List.mem_cons_of_mem a hk, rfl⟩

lemma mem_instsOf_mutateAtPos (cfg : List BBlock) (p : Nat × Nat)
    (f : brw_inst → brw_inst) (j : brw_inst)
    (hj : j ∈ instsOf (mutateAtPos cfg p f)) :
    j ∈ instsOf cfg ∨ ∃ k, k ∈ instsOf cfg ∧ j = f k := by
  unfold mutateAtPos at hj
  unfold instsOf at hj ⊢
  rcases List.mem_flatten.mp hj with ⟨bl, hbl, hjbl⟩
  rcases List.mem_map.mp hbl with ⟨b, hb, rfl⟩
  rcases mem_setAt cfg p.1 _ b hb with hbmem | ⟨b0, hb0, rfl⟩
  · exact Or.inl (List.mem_flatten.mpr ⟨b.insts, List.mem_map_of_mem _ hbmem, hjbl⟩)
  · simp only at hjbl
    rcases mem_setAt b0.insts p.2 f j hjbl with hmem | ⟨k, hk, rfl⟩
    · exact Or.inl (List.mem_flatten.mpr ⟨b0.insts, List.mem_map_of_mem _ hb0, hmem⟩)
    · exact Or.inr ⟨k, List.mem_flatten.mpr ⟨b0.insts, List.mem_map_of_mem _ hb0, hk⟩, rfl⟩

lemma idIsNop_mutateAtPos_nop (cfg : List BBlock) (p : Nat × Nat) (x : Nat)
    (h : idIsNop cfg x) :
    idIsNop (mutateAtPos cfg p (fun j => { j with opcode := Opcode.NOP })) x := by
  intro j hj hid
  rcases mem_instsOf_mutateAtPos cfg p _ j hj with hmem | ⟨k, hk, rfl⟩
  · exact h j hmem hid
  · rfl

lemma idIsNop_completeAttempt (env : Env) (st3 : LoopState) (i : brw_inst)
    (x : Nat) (h : idIsNop st3.cfg x) :
    idIsNop (completeAttempt env st3 i).cfg x := by
  rcases completeAttempt_cfg_ranges env st3 i with ⟨e1, -⟩ | -
  · rw [e1]
    exact h
  · unfold completeAttempt
    split
    · exact h
    · dsimp only
      split
      · exact idIsNop_remapAll _ _ _ _ _
          (idIsNop_rewriteRecorded _ _ _ _ h)
      · exact h

lemma idIsNop_loopBody (env : Env) (st : LoopState) (p : Nat × Nat) (x : Nat)
    (h : idIsNop st.cfg x) : idIsNop (loopBody env st p).cfg x := by
  cases hat : instAt st.cfg p with
  | none =>
      rw [loopBody_eq_none env st p hat]
      exact h
  | some j =>
      rcases Bool.eq_false_or_eq_true (is_coalesce_candidate env j) with hc | hc
      case inr =>
        rw [loopBody_eq_notcand env st p j hat hc]
        exact h
      rcases Bool.eq_false_or_eq_true (is_nop_mov env j) with hn | hn
      case inl =>
        rw [loopBody_eq_nop env st p j hat hc hn]
        exact idIsNop_mutateAtPos_nop _ _ _ h
      by_cases hd : env.defs (srcAt j 0) = some Opcode.LOAD_REG
      case pos =>
        rw [loopBody_eq_loadreg env st p j hat hc hn hd]
        exact h
      by_cases hr : st.src_reg = some (srcAt j 0).nr
      · by_cases hdst : st.dst_reg = j.dst.nr
        · have heq := loopBody_eq_attempt env st p j hat hc hn hd hr hdst
          cases hacc : accumulate st j with
          | none =>
              simp only [hacc] at heq
              rw [heq]
              exact h
          | some st3 =>
              simp only [hacc] at heq
              rw [heq]
              obtain ⟨h3cfg, -⟩ := accumulate_some st st3 j hacc
              exact idIsNop_completeAttempt env st3 j x (by rw [h3cfg]; exact h)
        · rw [loopBody_eq_dstskip env st p j hat hc hn hd hr hdst]
          exact h
      · have heq := loopBody_eq_attempt_reset env st p j hat hc hn hd hr
        cases hacc : accumulate (resetAttempt env st j) j with
        | none =>
            simp only [hacc] at heq
            rw [heq]
            exact h
        | some st3 =>
            simp only [hacc] at heq
            rw [heq]
            obtain ⟨h3cfg, -⟩ := accumulate_some _ st3 j hacc
            exact idIsNop_completeAttempt env st3 j x (by rw [h3cfg]; exact h)

lemma progress_completeAttempt (env : Env) (st3 : LoopState) (i : brw_inst)
    (h : st3.progress = true) : (completeAttempt env st3 i).progress = true := by
  unfold completeAttempt
  split
  · exact h
  · dsimp only
    split
    · rfl
    · exact h

lemma progress_loopBody (env : Env) (st : LoopState) (p : Nat × Nat)
    (h : st.progress = true) : (loopBody env st p).progress = true := by
  cases hat : instAt st.cfg p with
  | none =>
      rw [loopBody_eq_none env st p hat]
      exact h
  | some j =>
      rcases Bool.eq_false_or_eq_true (is_coalesce_candidate env j) with hc | hc
      case inr =>
        rw [loopBody_eq_notcand env st p j hat hc]
        exact h
      rcases Bool.eq_false_or_eq_true (is_nop_mov env j) with hn | hn
      case inl =>
        rw [loopBody_eq_nop env st p j hat hc hn]
      by_cases hd : env.defs (srcAt j 0) = some Opcode.LOAD_REG
      case pos =>
        rw [loopBody_eq_loadreg env st p j hat hc hn hd]
        exact h
      by_cases hr : st.src_reg = some (srcAt j 0).nr
      · by_cases hdst : st.dst_reg = j.dst.nr
        · have heq := loopBody_eq_attempt env st p j hat hc hn hd hr hdst
          cases hacc : accumulate st j with
          | none =>
              simp only [hacc] at heq
              rw [heq]
              exact h
          | some st3 =>
              simp only [hacc] at heq
              rw [heq]
              obtain ⟨-, -, h3pr, -⟩ := accumulate_some st st3 j hacc
              exact progress_completeAttempt env st3 j (by rw [h3pr]; exact h)
        · rw [loopBody_eq_dstskip env st p j hat hc hn hd hr hdst]
          exact h
      · have heq := loopBody_eq_attempt_reset env st p j hat hc hn hd hr
        cases hacc : accumulate (resetAttempt env st j) j with
        | none =>
            simp only [hacc] at heq
            rw [heq]
            exact h
        | some st3 =>
            simp only [hacc] at heq
            rw [heq]
            obtain ⟨-, -, h3pr, -⟩ := accumulate_some _ st3 j hacc
            exact progress_completeAttempt env st3 j (by rw [h3pr]; exact h)

lemma invariant_runLoop (env : Env) (ps : List (Nat × Nat)) (st : LoopState)
    (x : Nat) (h1 : idIsNop st.cfg x) (h2 : st.progress = true) :
    idIsNop (runLoop env ps st).cfg x ∧ (runLoop env ps st).progress = true := by
  induction ps generalizing st with
  | nil => exact ⟨h1, h2⟩
  | cons p rest ih =>
      exact ih (loopBody env st p)
        (idIsNop_loopBody env st p x h1)
        (progress_loopBody env st p h2)

lemma get?_setAt_decomp {α : Type} (l : List α) (n : Nat) (a : α) (f : α → α)
    (h : l.get? n = some a) :
    ∃ l₁ l₂, l = l₁ ++ a :: l₂ ∧ setAt l n f = l₁ ++ f a :: l₂ := by
  induction l generalizing n with
  | nil => cases h
  | cons b t ih =>
      cases n with
      | zero =>
          cases h
          exact ⟨[], t, rfl, rfl⟩
      | succ m =>
          rcases ih m h with ⟨l₁, l₂, he, hs⟩
          refine ⟨b :: l₁, l₂, ?_, ?_⟩
          · rw [List.cons_append, ← he]
          · simp only [setAt, hs, List.cons_append]

lemma instsOf_decomp (cfg : List BBlock) (p : Nat × Nat) (i : brw_inst)
    (f : brw_inst → brw_inst)
    (hat : instAt cfg p = some i) :
    ∃ L₁ L₂, instsOf cfg = L₁ ++ i :: L₂ ∧
      instsOf (mutateAtPos cfg p f) = L₁ ++ f i :: L₂ := by
  unfold instAt at hat
  cases hb : cfg.get? p.1 with
  | none =>
      rw [hb] at hat
      cases hat
  | some b =>
      rw [hb] at hat
      rcases get?_setAt_decomp b.insts p.2 i f hat with ⟨l₁, l₂, he, hs⟩
      rcases get?_setAt_decomp cfg p.1 b
        (fun bb => { bb with insts := setAt bb.insts p.2 f }) hb with
        ⟨B₁, B₂, hbe, hbs⟩
      refine ⟨instsOf B₁ ++ l₁, l₂ ++ instsOf B₂, ?_, ?_⟩
      · rw [hbe]
        simp [instsOf, he, List.append_assoc]
      · unfold mutateAtPos
        rw [hbs]
        simp [instsOf, hs, List.append_assoc]

lemma establish_nop (cfg : List BBlock) (p : Nat × Nat) (i : brw_inst)
    (hat : instAt cfg p = some i)
    (hids : ((instsOf cfg).map (fun j => j.id)).Nodup) :
    idIsNop (mutateAtPos cfg p (fun j => { j with opcode := Opcode.NOP }))
      i.id := by
  rcases instsOf_decomp cfg p i _ hat with ⟨L₁, L₂, he, hs⟩
  intro j hj hid
  rw [hs] at hj
  rw [he, List.map_append] at hids
  rcases List.nodup_append.mp hids with ⟨-, hnd2, hdisj⟩
  rcases List.mem_append.mp hj with hj1 | hj2
  · exact absurd (by rw [hid]; exact List.mem_cons_self _ _)
      (hdisj (List.mem_map_of_mem _ hj1))
  · rcases List.mem_cons.mp hj2 with rfl | hj3
    · rfl
    · exfalso
      simp only [List.map_cons, List.nodup_cons] at hnd2
      exact hnd2.1 (hid ▸ List.mem_map_of_mem (fun j => j.id) hj3)

lemma mem_removeNops (cfg : List BBlock) (j : brw_inst)
    (hj : j ∈ instsOf (removeNops cfg)) :
    j ∈ instsOf cfg ∧ j.opcode ≠ Opcode.NOP := by
  unfold removeNops instsOf at hj
  unfold instsOf
  rcases List.mem_flatten.mp hj with ⟨bl, hbl, hjbl⟩
  rcases List.mem_map.mp hbl with ⟨b, hb, rfl⟩
  rcases List.mem_map.mp hb with ⟨b0, hb0, rfl⟩
  have hf := List.mem_filter.mp hjbl
  refine ⟨List.mem_flatten.mpr ⟨b0.insts, List.mem_map_of_mem _ hb0, hf.1⟩, ?_⟩
  simpa using hf.2

/-- C5 as amended: every instruction that, at the moment the scan visits
it, is a coalesce candidate whose operands make it a trivial no-op copy
(this includes a MOV whose source and destination operands are
bit-identical) is converted to the no-op opcode, the pass records progress,
and — provided instruction ids are unique — the instruction is physically
removed by the end-of-pass cleanup, regardless of any interference between
the registers (no interference or live-range information is consulted on
this path). -/
theorem C5_nop_mov_converted_and_removed (env : Env) (st : LoopState)
    (p : Nat × Nat) (rest : List (Nat × Nat)) (i : brw_inst)
    (hids : ((instsOf st.cfg).map (fun j => j.id)).Nodup)
    (hat : instAt st.cfg p = some i)
    (hcand : is_coalesce_candidate env i = true)
    (hnop : is_nop_mov env i = true) :
    (finishPass (runLoop env (p :: rest) st)).progress = true ∧
    ∀ j ∈ instsOf (finishPass (runLoop env (p :: rest) st)).cfg, j.id ≠ i.id := by
  have hstep := loopBody_eq_nop env st p i hat hcand hnop
  obtain ⟨hnops, hprog⟩ := invariant_runLoop env rest (loopBody env st p) i.id
    (by rw [hstep]; exact establish_nop st.cfg p i hat hids)
    (by rw [hstep])
  have hrun : runLoop env (p :: rest) st = runLoop env rest (loopBody env st p) :=
    rfl
  rw [hrun]
  constructor
  · unfold finishPass
    rw [if_pos hprog]
    exact hprog
  · intro j hj
    unfold finishPass at hj
    rw [if_pos hprog] at hj
    intro hid
    have hmem := mem_removeNops _ j hj
    exact hmem.2 (hnops j hmem.1 hid)

/-- Saturating self-copy: its source and destination operands are
bit-identical, but the saturate modifier disqualifies it as a coalesce
candidate. -/
def movSat : brw_inst :=
  { baseInst with id := 30, opcode := Opcode.MOV, dst := mkVgrf 2 0,
                  src := [mkVgrf 2 0], size_written := 32, sizes_read := [32],
                  saturate := true }

/-- CFG holding only the saturating self-copy. -/
def cfgSat : List BBlock := [⟨0, [movSat]⟩]

/-- C5 counterexample: a MOV whose source and destination operands are
bit-identical but which carries a saturate modifier is not a coalesce
candidate, so the pass leaves it completely untouched — it is not converted
to a no-op, no progress is recorded, and it is not removed — contradicting
the claim that every bit-identical move is always converted and removed. -/
theorem C5_counterexample :
    movSat.opcode = Opcode.MOV ∧
    movSat.dst = srcAt movSat 0 ∧
    (brw_opt_register_coalesce baseEnv cfgSat []).progress = false ∧
    (brw_opt_register_coalesce baseEnv cfgSat []).cfg = cfgSat := by decide

/-- Plain trivial self-copy used by the C5 witness. -/
def movNopW : brw_inst :=
  { baseInst with id := 31, opcode := Opcode.MOV, dst := mkVgrf 2 0,
                  src := [mkVgrf 2 0], size_written := 32, sizes_read := [32] }

/-- Fresh pass state holding only the trivial self-copy. -/
def stNopW : LoopState :=
  { cfg := [⟨0, [movNopW]⟩], ranges := [], progress := false, src_reg := none,
    dst_reg := 0, src_size := 0, channels_remaining := 0,
    dst_reg_offset := List.replicate 8 0, mov := List.replicate 8 none,
    validated := 0, applied := 0 }

theorem C5_witness :
    ((instsOf stNopW.cfg).map (fun j => j.id)).Nodup ∧
    instAt stNopW.cfg (0, 0) = some movNopW ∧
    is_coalesce_candidate baseEnv movNopW = true ∧
    is_nop_mov baseEnv movNopW = true ∧
    ((finishPass (runLoop baseEnv ((0, 0) :: []) stNopW)).progress = true ∧
     ∀ j ∈ instsOf (finishPass (runLoop baseEnv ((0, 0) :: []) stNopW)).cfg,
       j.id ≠ movNopW.id) :=
  ⟨by decide, by decide, by decide, by decide,
   C5_nop_mov_converted_and_removed baseEnv stNopW (0, 0) [] movNopW
     (by decide) (by decide) (by decide) (by decide)⟩
